import Mathlib

/-!
# LINFA manager protocol and server loop

A shallow embedding of `include/linfa/manger_protocol.h`, `include/linfa/manager.h`
and `src/linfa/manager.cpp`.

Conventions of the embedding.

* A `std::string` is a Lean `String`; each character stands for one C++ `char`
  (one byte on the wire).  A byte read from a buffer is the character code
  modulo 256, a byte written is `Char.ofNat` of a value below 256.
* `uint8_t` and `uint32_t` values are natural numbers; every store into a
  buffer reduces modulo 256 byte by byte, in little-endian order (the byte
  order of the modelled host, since the source uses `memcpy`).
* A `zmq::multipart_t` is the list of its parts, and the messages sent on the
  socket during one pass of the loop body are collected in a list.
* A `system_clock::time_point` is the integer count of its clock ticks, which
  are nanoseconds on the modelled host; `std::chrono::milliseconds` is the
  integer count of milliseconds.  Both are `int64_t` in the source: arithmetic
  on them is reduced to the 64-bit two's complement range by `wrapInt64`.
-/

namespace LINFA

/-! ## `manger_protocol.h` -/

namespace RequestType

/-- Code `'G'`. -/
abbrev GET_STATUS : Nat := 71
/-- Code `'S'`. -/
abbrev START : Nat := 83
/-- Code `'s'`. -/
abbrev STOP : Nat := 115
/-- Code `'P'`. -/
abbrev PAUSE : Nat := 80
/-- Code `'p'`. -/
abbrev RESUME : Nat := 112
/-- The sentinel. -/
abbrev UNDEFINED : Nat := 0

end RequestType

/-- Enumerators and compile-time constants that `manager.cpp` uses but that are
declared nowhere in the available sources: the four request codes missing from
`enum RequestType` and the version string macro. -/
structure BuildEnv where
  GET_BTCPP_VERSION : Nat
  GET_MANAGER_VERSION : Nat
  SET_TREE : Nat
  GET_TREE : Nat
  BTCPP_LIBRARY_VERSION : String
  deriving Repr

/-- The nine commands: the case labels of the `switch` in `serverLoop`, in
source order. -/
def BuildEnv.commands (env : BuildEnv) : List Nat :=
  [env.GET_BTCPP_VERSION, env.GET_MANAGER_VERSION, RequestType.GET_STATUS,
   RequestType.START, RequestType.STOP, RequestType.PAUSE, RequestType.RESUME,
   env.SET_TREE, env.GET_TREE]

/-- The nine commands followed by the `UNDEFINED` sentinel. -/
def BuildEnv.labels (env : BuildEnv) : List Nat :=
  env.commands ++ [RequestType.UNDEFINED]

/-- Modelled from the spec: the missing enumerators of `RequestType`.  The nine
commands form a closed set of `uint8_t` codes, pairwise distinct (they are the
labels of one `switch`), and none of them is the `UNDEFINED` sentinel. -/
def BuildEnv.valid (env : BuildEnv) : Prop :=
  env.labels.Nodup ∧ ∀ x ∈ env.labels, x < 256

instance (env : BuildEnv) : Decidable env.valid := by
  unfold BuildEnv.valid; infer_instance

/-- A sample assignment of the missing codes, used to exercise the model. -/
def sampleEnv : BuildEnv :=
  { GET_BTCPP_VERSION := 86, GET_MANAGER_VERSION := 118, SET_TREE := 84,
    GET_TREE := 116, BTCPP_LIBRARY_VERSION := "4.6.2" }

abbrev kProtocolID : Nat := 2

structure RequestHeader where
  unique_id : Nat := 0
  protocol : Nat := kProtocolID
  type : Nat := RequestType.UNDEFINED
  deriving DecidableEq, Repr

/-- The value of `RequestHeader::size()`:
`sizeof(uint32_t) + sizeof(uint8_t) + sizeof(uint8_t)`. -/
def RequestHeader.size : Nat := 4 + 1 + 1

/-- The fields fit their C++ types (`uint32_t`, `uint8_t`, `uint8_t`). -/
def RequestHeader.inRange (h : RequestHeader) : Prop :=
  h.unique_id < 2 ^ 32 ∧ h.protocol < 256 ∧ h.type < 256

instance (h : RequestHeader) : Decidable h.inRange := by
  unfold RequestHeader.inRange; infer_instance

structure ReplyHeader where
  request : RequestHeader := {}
  deriving DecidableEq, Repr

def ReplyHeader.size : Nat := RequestHeader.size

/-- The `memcpy` of `n` bytes of `value`, least significant byte first, into
`buffer` starting at `offset`. -/
def memcpyTo : Nat → List Char → Nat → Nat → List Char
  | 0, buffer, _, _ => buffer
  | n + 1, buffer, offset, value =>
    memcpyTo n (buffer.set offset (Char.ofNat (value % 256))) (offset + 1) (value / 256)

/-- The `memcpy` of `n` bytes out of `buffer` starting at `offset`, read as a
little-endian unsigned integer.  A read past the end of the buffer (undefined
in C++ beyond the terminator) yields the NUL byte. -/
def memcpyFrom : Nat → List Char → Nat → Nat
  | 0, _, _ => 0
  | n + 1, buffer, offset =>
    (buffer.getD offset '\x00').toNat % 256 + 256 * memcpyFrom n buffer (offset + 1)

/-- The template `Serialize<T>(buffer, offset, value)` with `sizeofT = sizeof(T)`: the
updated buffer and the number of bytes written. -/
def Serialize (sizeofT : Nat) (buffer : List Char) (offset : Nat) (value : Nat) :
    List Char × Nat :=
  (memcpyTo sizeofT buffer offset value, sizeofT)

/-- The template `Deserialize<T>(buffer, offset, value)` with `sizeofT = sizeof(T)`: the
value read and the number of bytes consumed. -/
def Deserialize (sizeofT : Nat) (buffer : List Char) (offset : Nat) : Nat × Nat :=
  (memcpyFrom sizeofT buffer offset, sizeofT)

/-- The overload `SerializeHeader(const RequestHeader&)`. -/
def SerializeHeader (header : RequestHeader) : String :=
  let buffer : List Char := List.replicate 6 '\x00'
  let offset := 0
  let r1 := Serialize 1 buffer offset header.protocol
  let offset := offset + r1.2
  let r2 := Serialize 1 r1.1 offset header.type
  let offset := offset + r2.2
  let r3 := Serialize 4 r2.1 offset header.unique_id
  String.mk r3.1

/-- The overload `SerializeHeader(const ReplyHeader&)`. -/
def SerializeHeaderReply (header : ReplyHeader) : String :=
  SerializeHeader header.request

/-- The function `DeserializeRequestHeader(const std::string&)`. -/
def DeserializeRequestHeader (buffer : String) : RequestHeader :=
  let offset := 0
  let r1 := Deserialize 1 buffer.data offset
  let offset := offset + r1.2
  let r2 := Deserialize 1 buffer.data offset
  let offset := offset + r2.2
  let r3 := Deserialize 4 buffer.data offset
  { unique_id := r3.1, protocol := r1.1, type := r2.1 }

/-- The function `DeserializeReplyHeader(const std::string&)`. -/
def DeserializeReplyHeader (buffer : String) : ReplyHeader :=
  { request := DeserializeRequestHeader buffer }

/-! ## `manager.h` -/

inductive StatusType where
  | IDLE
  | STARTING
  | RUNNING
  | PAUSED
  | STOPPING
  deriving DecidableEq, Repr

def toStatusStr : StatusType → String
  | .IDLE => "IDLE"
  | .STARTING => "STARTING"
  | .RUNNING => "RUNNING"
  | .PAUSED => "PAUSED"
  | .STOPPING => "STOPPING"

/-! ## `manager.cpp` -/

/-- The fields of `Manager::PImpl` that the loops read and write. -/
structure PImpl where
  tree_xml : String
  status : StatusType
  active_server : Bool := false
  last_heartbeat : Int
  max_heartbeat_delay : Int := 5000
  deriving DecidableEq, Repr

namespace Manager

def getXmlTree (p : PImpl) : String := p.tree_xml

def getStatus (p : PImpl) : StatusType := p.status

def setStatus (p : PImpl) (status : StatusType) : PImpl := { p with status := status }

def setMaxHeartbeatDelay (p : PImpl) (delay : Int) : PImpl :=
  { p with max_heartbeat_delay := delay }

def maxHeartbeatDelay (p : PImpl) : Int := p.max_heartbeat_delay

/-- The lambda `sendErrorReply` of `serverLoop`: the message it sends. -/
def sendErrorReply (msg : String) : List String := ["error", msg]

/-- One pass through the body of the `while` loop of `serverLoop`.  `now` is the
reading of the system clock, `recv` the outcome of `requestMsg.recv(socket)`
(`none` when it returns false, otherwise the parts received).  The result is
the state after the pass and the messages sent on the socket during it. -/
def serverLoopStep (env : BuildEnv) (now : Int) (recv : Option (List String)) (p : PImpl) :
    PImpl × List (List String) :=
  match recv with
  | none => (p, [])
  | some [] => (p, [])
  | some (request_str :: more) =>
    let requestMsg := request_str :: more
    let p := { p with last_heartbeat := now }
    if request_str.length ≠ RequestHeader.size then
      (p, [sendErrorReply ("wrong request header: received size " ++
             toString request_str.length ++ ", expected size " ++
             toString RequestHeader.size)])
    else
      let request_header := DeserializeRequestHeader request_str
      let reply_header : ReplyHeader :=
        { request := { request_header with protocol := kProtocolID } }
      let reply_msg : List String := [SerializeHeaderReply reply_header]
      if request_header.type = env.GET_BTCPP_VERSION then
        (p, [reply_msg ++ [env.BTCPP_LIBRARY_VERSION]])
      else if request_header.type = env.GET_MANAGER_VERSION then
        (p, [reply_msg ++ [env.BTCPP_LIBRARY_VERSION]])
      else if request_header.type = RequestType.GET_STATUS then
        let status := toStatusStr p.status
        (p, [reply_msg ++ [status]])
      else if request_header.type = RequestType.START then
        ({ p with status := StatusType.STARTING }, [reply_msg])
      else if request_header.type = RequestType.STOP then
        if p.status = StatusType.RUNNING ∨ p.status = StatusType.PAUSED then
          ({ p with status := StatusType.STOPPING }, [reply_msg])
        else (p, [reply_msg])
      else if request_header.type = RequestType.PAUSE then
        if p.status = StatusType.RUNNING then
          ({ p with status := StatusType.PAUSED }, [reply_msg])
        else (p, [reply_msg])
      else if request_header.type = RequestType.RESUME then
        if p.status = StatusType.PAUSED then
          ({ p with status := StatusType.RUNNING }, [reply_msg])
        else (p, [reply_msg])
      else if request_header.type = env.SET_TREE then
        if requestMsg.length ≠ 2 then
          (p, [sendErrorReply "must be 2 parts message"])
        else if p.status ≠ StatusType.IDLE then
          (p, [sendErrorReply "Cannot change tree while running"])
        else
          ({ p with tree_xml := requestMsg.getD 1 "" }, [reply_msg])
      else if request_header.type = env.GET_TREE then
        (p, [reply_msg ++ [p.tree_xml]])
      else
        (p, [sendErrorReply "Request not recognized"])

/-- The header part of a normal reply to a request whose first part is `s`. -/
def echoPart (s : String) : String :=
  SerializeHeader { unique_id := (DeserializeRequestHeader s).unique_id,
                    protocol := kProtocolID,
                    type := (DeserializeRequestHeader s).type }

/-- The part of the constructor `Manager::Manager` that prepares the state, for
the XML text `tree_xml` of the tree it is given: the status is IDLE, the loops
are not yet running and the delay has its default of 5000 ms. -/
def init (tree_xml : String) : PImpl :=
  { tree_xml := tree_xml, status := StatusType.IDLE, active_server := false,
    last_heartbeat := 0, max_heartbeat_delay := 5000 }

/-- What one pass of the loop of `serverLoop` takes from outside: the reading
of the system clock and the outcome of `requestMsg.recv(socket)`. -/
structure Pass where
  now : Int
  recv : Option (List String)
  deriving Repr

/-- The statements of `serverLoop` that precede its loop; `now` is the reading
of the system clock. -/
def serverLoopEnter (now : Int) (p : PImpl) : PImpl :=
  { p with active_server := true, last_heartbeat := now }

/-- The loop `while(_p->active_server)` of `serverLoop`, run over a finite
sequence of passes: the state after them and the messages sent, in order. -/
def serverLoopPasses (env : BuildEnv) : List Pass → PImpl → PImpl × List (List String)
  | [], p => (p, [])
  | e :: es, p =>
    if p.active_server then
      let r := serverLoopStep env e.now e.recv p
      let rest := serverLoopPasses env es r.1
      (rest.1, r.2 ++ rest.2)
    else (p, [])

/-- The function `serverLoop` over a finite sequence of passes; `start` is the
reading of the clock when it is entered. -/
def serverLoop (env : BuildEnv) (start : Int) (passes : List Pass) (p : PImpl) :
    PImpl × List (List String) :=
  serverLoopPasses env passes (serverLoopEnter start p)

/-- The value an `int64_t` holds when the exact result of an operation is `x`:
`x` itself when it fits, and the two's complement wrap-around of the modelled
host when it does not (signed overflow, which C++ leaves undefined). -/
def wrapInt64 (x : Int) : Int := (x + 2 ^ 63) % 2 ^ 64 - 2 ^ 63

/-- The exact result `x` of an operation fits `int64_t`. -/
def fitsInt64 (x : Int) : Prop := -2 ^ 63 ≤ x ∧ x < 2 ^ 63

instance (x : Int) : Decidable (fitsInt64 x) := by
  unfold fitsInt64; infer_instance

/-- The number of ticks of `system_clock::duration` (nanoseconds on the
modelled host) in one millisecond: the factor by which the comparison of a
clock duration with a `std::chrono::milliseconds` multiplies the latter. -/
def ticksPerMillisecond : Int := 1000000

/-- One pass through the body of the loop of `heartbeatLoop`, after its sleep
of 10 ms: `now` is the reading of the system clock (in ticks) and
`has_heartbeat` the value of the local variable before the pass; the result is
its value after the pass.  The comparison
`now - _p->last_heartbeat < _p->max_heartbeat_delay` subtracts two time points
into a 64-bit count of ticks and converts the delay from milliseconds to ticks,
both in `int64_t`.  The branch taken when the value flips is empty in the
source. -/
def heartbeatLoopStep (now : Int) (p : PImpl) (has_heartbeat : Bool) : Bool :=
  let prev_heartbeat := has_heartbeat
  let elapsed := wrapInt64 (now - p.last_heartbeat)
  let max_delay := wrapInt64 (p.max_heartbeat_delay * ticksPerMillisecond)
  let has_heartbeat := decide (elapsed < max_delay)
  if has_heartbeat ≠ prev_heartbeat then has_heartbeat else has_heartbeat

end Manager

/-! ## Sample data -/

/-- A state in which the executor is idle. -/
def sampleIdle : PImpl :=
  { tree_xml := "<root/>", status := StatusType.IDLE, active_server := true, last_heartbeat := 0 }

/-- A state in which the executor is running. -/
def sampleRunning : PImpl :=
  { tree_xml := "<root/>", status := StatusType.RUNNING, active_server := true,
    last_heartbeat := 0 }

/-- The header `{protocol = 2, type = START, unique_id = 42}`. -/
def sampleStart : RequestHeader := { unique_id := 42, protocol := 2, type := RequestType.START }

/-- The header `{protocol = 1, type = START, unique_id = 42}`, of another
protocol version. -/
def sampleStartV1 : RequestHeader :=
  { unique_id := 42, protocol := 1, type := RequestType.START }

/-- The header `{protocol = 2, type = SET_TREE, unique_id = 7}`. -/
def sampleSetTree : RequestHeader :=
  { unique_id := 7, protocol := 2, type := sampleEnv.SET_TREE }

/-- The header `{protocol = 2, type = UNDEFINED, unique_id = 7}`. -/
def sampleUndefined : RequestHeader :=
  { unique_id := 7, protocol := 2, type := RequestType.UNDEFINED }

/-- The header `{protocol = 2, type = GET_TREE, unique_id = 8}`. -/
def sampleGetTree : RequestHeader :=
  { unique_id := 8, protocol := 2, type := sampleEnv.GET_TREE }

/-- The header `{protocol = 2, type = GET_STATUS, unique_id = 9}`. -/
def sampleGetStatus : RequestHeader :=
  { unique_id := 9, protocol := 2, type := RequestType.GET_STATUS }

/-- The header `{protocol = 2, type = PAUSE, unique_id = 10}`. -/
def samplePause : RequestHeader :=
  { unique_id := 10, protocol := 2, type := RequestType.PAUSE }

/-- A message contains a header part echoing `unique_id` and `type`: one of its
parts is 6 bytes long and decodes to a header with these two fields. -/
def hasEcho (m : List String) (unique_id type : Nat) : Prop :=
  ∃ part ∈ m, part.length = 6 ∧ (DeserializeRequestHeader part).unique_id = unique_id ∧
    (DeserializeRequestHeader part).type = type

instance (m : List String) (unique_id type : Nat) : Decidable (hasEcho m unique_id type) := by
  unfold hasEcho; infer_instance

/-! ## Auxiliary facts about the codec -/

theorem toNat_ofNat_byte (n : Nat) (h : n < 256) : (Char.ofNat n).toNat = n := by
  have hv : n.isValidChar := Or.inl (by omega)
  simp only [Char.ofNat, hv, dite_true, Char.toNat, Char.ofNatAux]
  show (UInt32.toNat _) = n
  simp [UInt32.toNat, BitVec.toNat_ofNatLt]

theorem SerializeHeader_data (h : RequestHeader) :
    (SerializeHeader h).data =
      [Char.ofNat (h.protocol % 256), Char.ofNat (h.type % 256),
       Char.ofNat (h.unique_id % 256), Char.ofNat (h.unique_id / 256 % 256),
       Char.ofNat (h.unique_id / 256 / 256 % 256),
       Char.ofNat (h.unique_id / 256 / 256 / 256 % 256)] := rfl

theorem SerializeHeader_length (h : RequestHeader) : (SerializeHeader h).length = 6 := rfl

theorem DeserializeRequestHeader_cons (c0 c1 c2 c3 c4 c5 : Char) (l : List Char) :
    DeserializeRequestHeader (String.mk (c0 :: c1 :: c2 :: c3 :: c4 :: c5 :: l)) =
      { unique_id := c2.toNat % 256 + 256 * (c3.toNat % 256 + 256 * (c4.toNat % 256 +
          256 * (c5.toNat % 256 + 256 * 0))),
        protocol := c0.toNat % 256 + 256 * 0,
        type := c1.toNat % 256 + 256 * 0 } := rfl

theorem DeserializeRequestHeader_inRange (buffer : String) :
    (DeserializeRequestHeader buffer).inRange := by
  simp only [DeserializeRequestHeader, Deserialize, memcpyFrom, RequestHeader.inRange]
  omega

theorem DeserializeRequestHeader_SerializeHeader (h : RequestHeader) (hr : h.inRange) :
    DeserializeRequestHeader (SerializeHeader h) = h := by
  obtain ⟨u, p, t⟩ := h
  simp only [RequestHeader.inRange] at hr
  have e : SerializeHeader ⟨u, p, t⟩ = String.mk (SerializeHeader ⟨u, p, t⟩).data := rfl
  rw [e, SerializeHeader_data, DeserializeRequestHeader_cons]
  simp only [toNat_ofNat_byte _ (Nat.mod_lt _ (by decide : 256 > 0))]
  simp only [RequestHeader.mk.injEq]
  omega

/-! ## Auxiliary facts about the server loop -/

/-- What validity of the build environment says about the four missing codes,
with the known codes written out, in both orientations. -/
theorem BuildEnv.valid_ne (env : BuildEnv) (hv : env.valid) :
    (env.GET_BTCPP_VERSION ≠ env.GET_MANAGER_VERSION ∧ env.GET_BTCPP_VERSION ≠ env.SET_TREE ∧
      env.GET_BTCPP_VERSION ≠ env.GET_TREE ∧ env.GET_MANAGER_VERSION ≠ env.SET_TREE ∧
      env.GET_MANAGER_VERSION ≠ env.GET_TREE ∧ env.SET_TREE ≠ env.GET_TREE) ∧
    (env.GET_BTCPP_VERSION ≠ 71 ∧ env.GET_BTCPP_VERSION ≠ 83 ∧ env.GET_BTCPP_VERSION ≠ 115 ∧
      env.GET_BTCPP_VERSION ≠ 80 ∧ env.GET_BTCPP_VERSION ≠ 112 ∧ env.GET_BTCPP_VERSION ≠ 0) ∧
    (env.GET_MANAGER_VERSION ≠ 71 ∧ env.GET_MANAGER_VERSION ≠ 83 ∧
      env.GET_MANAGER_VERSION ≠ 115 ∧ env.GET_MANAGER_VERSION ≠ 80 ∧
      env.GET_MANAGER_VERSION ≠ 112 ∧ env.GET_MANAGER_VERSION ≠ 0) ∧
    (env.SET_TREE ≠ 71 ∧ env.SET_TREE ≠ 83 ∧ env.SET_TREE ≠ 115 ∧ env.SET_TREE ≠ 80 ∧
      env.SET_TREE ≠ 112 ∧ env.SET_TREE ≠ 0) ∧
    (env.GET_TREE ≠ 71 ∧ env.GET_TREE ≠ 83 ∧ env.GET_TREE ≠ 115 ∧ env.GET_TREE ≠ 80 ∧
      env.GET_TREE ≠ 112 ∧ env.GET_TREE ≠ 0) := by
  simp only [BuildEnv.valid, BuildEnv.labels, BuildEnv.commands, RequestType.GET_STATUS,
    RequestType.START, RequestType.STOP, RequestType.PAUSE, RequestType.RESUME,
    RequestType.UNDEFINED] at hv
  simp only [List.nodup_cons, List.mem_cons, List.mem_singleton, List.cons_append,
    List.nil_append, List.not_mem_nil, not_or, List.nodup_nil, or_false, and_true] at hv
  obtain ⟨hv, -⟩ := hv
  casesm* _ ∧ _
  refine ⟨⟨?_, ?_, ?_, ?_, ?_, ?_⟩, ⟨?_, ?_, ?_, ?_, ?_, ?_⟩, ⟨?_, ?_, ?_, ?_, ?_, ?_⟩,
    ⟨?_, ?_, ?_, ?_, ?_, ?_⟩, ⟨?_, ?_, ?_, ?_, ?_, ?_⟩⟩ <;>
  first
    | assumption
    | (intro e; exact absurd e.symm (by assumption))

namespace Manager

theorem step_GET_BTCPP_VERSION (env : BuildEnv) (hv : env.valid) (now : Int) (p : PImpl) (s : String)
    (more : List String) (hlen : s.length = 6)
    (ht : (DeserializeRequestHeader s).type = env.GET_BTCPP_VERSION) :
    serverLoopStep env now (some (s :: more)) p =
      ({ p with last_heartbeat := now }, [[echoPart s, env.BTCPP_LIBRARY_VERSION]]) := by
  have hne := env.valid_ne hv
  simp only [ne_eq] at hne
  casesm* _ ∧ _
  simp only [serverLoopStep, hlen, RequestHeader.size, echoPart, SerializeHeaderReply]
  simp only [RequestType.GET_STATUS, RequestType.START, RequestType.STOP,
    RequestType.PAUSE, RequestType.RESUME] at ht ⊢
  have hsz : ¬ (6 : Nat) ≠ 4 + 1 + 1 := by decide
  rw [if_neg hsz]
  rw [if_pos ht]
  rfl

theorem step_GET_MANAGER_VERSION (env : BuildEnv) (hv : env.valid) (now : Int) (p : PImpl) (s : String)
    (more : List String) (hlen : s.length = 6)
    (ht : (DeserializeRequestHeader s).type = env.GET_MANAGER_VERSION) :
    serverLoopStep env now (some (s :: more)) p =
      ({ p with last_heartbeat := now }, [[echoPart s, env.BTCPP_LIBRARY_VERSION]]) := by
  have hne := env.valid_ne hv
  simp only [ne_eq] at hne
  casesm* _ ∧ _
  simp only [serverLoopStep, hlen, RequestHeader.size, echoPart, SerializeHeaderReply]
  simp only [RequestType.GET_STATUS, RequestType.START, RequestType.STOP,
    RequestType.PAUSE, RequestType.RESUME] at ht ⊢
  have hsz : ¬ (6 : Nat) ≠ 4 + 1 + 1 := by decide
  rw [if_neg hsz]
  iterate 1
    rw [if_neg (by
      rw [ht]
      first
        | decide
        | assumption
        | (intro e; exact absurd e.symm (by assumption)))]
  rw [if_pos ht]
  rfl

theorem step_GET_STATUS (env : BuildEnv) (hv : env.valid) (now : Int) (p : PImpl) (s : String)
    (more : List String) (hlen : s.length = 6)
    (ht : (DeserializeRequestHeader s).type = RequestType.GET_STATUS) :
    serverLoopStep env now (some (s :: more)) p =
      ({ p with last_heartbeat := now }, [[echoPart s, toStatusStr p.status]]) := by
  have hne := env.valid_ne hv
  simp only [ne_eq] at hne
  casesm* _ ∧ _
  simp only [serverLoopStep, hlen, RequestHeader.size, echoPart, SerializeHeaderReply]
  simp only [RequestType.GET_STATUS, RequestType.START, RequestType.STOP,
    RequestType.PAUSE, RequestType.RESUME] at ht ⊢
  have hsz : ¬ (6 : Nat) ≠ 4 + 1 + 1 := by decide
  rw [if_neg hsz]
  iterate 2
    rw [if_neg (by
      rw [ht]
      first
        | decide
        | assumption
        | (intro e; exact absurd e.symm (by assumption)))]
  rw [if_pos ht]
  rfl

theorem step_START (env : BuildEnv) (hv : env.valid) (now : Int) (p : PImpl) (s : String)
    (more : List String) (hlen : s.length = 6)
    (ht : (DeserializeRequestHeader s).type = RequestType.START) :
    serverLoopStep env now (some (s :: more)) p =
      ({ p with last_heartbeat := now, status := StatusType.STARTING }, [[echoPart s]]) := by
  have hne := env.valid_ne hv
  simp only [ne_eq] at hne
  casesm* _ ∧ _
  simp only [serverLoopStep, hlen, RequestHeader.size, echoPart, SerializeHeaderReply]
  simp only [RequestType.GET_STATUS, RequestType.START, RequestType.STOP,
    RequestType.PAUSE, RequestType.RESUME] at ht ⊢
  have hsz : ¬ (6 : Nat) ≠ 4 + 1 + 1 := by decide
  rw [if_neg hsz]
  iterate 3
    rw [if_neg (by
      rw [ht]
      first
        | decide
        | assumption
        | (intro e; exact absurd e.symm (by assumption)))]
  rw [if_pos ht]

theorem step_STOP (env : BuildEnv) (hv : env.valid) (now : Int) (p : PImpl) (s : String)
    (more : List String) (hlen : s.length = 6)
    (ht : (DeserializeRequestHeader s).type = RequestType.STOP) :
    serverLoopStep env now (some (s :: more)) p =
      ({ p with last_heartbeat := now,
                  status := if p.status = StatusType.RUNNING ∨ p.status = StatusType.PAUSED
                            then StatusType.STOPPING else p.status }, [[echoPart s]]) := by
  have hne := env.valid_ne hv
  simp only [ne_eq] at hne
  casesm* _ ∧ _
  simp only [serverLoopStep, hlen, RequestHeader.size, echoPart, SerializeHeaderReply]
  simp only [RequestType.GET_STATUS, RequestType.START, RequestType.STOP,
    RequestType.PAUSE, RequestType.RESUME] at ht ⊢
  have hsz : ¬ (6 : Nat) ≠ 4 + 1 + 1 := by decide
  rw [if_neg hsz]
  iterate 4
    rw [if_neg (by
      rw [ht]
      first
        | decide
        | assumption
        | (intro e; exact absurd e.symm (by assumption)))]
  rw [if_pos ht]
  split_ifs <;> rfl

theorem step_PAUSE (env : BuildEnv) (hv : env.valid) (now : Int) (p : PImpl) (s : String)
    (more : List String) (hlen : s.length = 6)
    (ht : (DeserializeRequestHeader s).type = RequestType.PAUSE) :
    serverLoopStep env now (some (s :: more)) p =
      ({ p with last_heartbeat := now,
                  status := if p.status = StatusType.RUNNING
                            then StatusType.PAUSED else p.status }, [[echoPart s]]) := by
  have hne := env.valid_ne hv
  simp only [ne_eq] at hne
  casesm* _ ∧ _
  simp only [serverLoopStep, hlen, RequestHeader.size, echoPart, SerializeHeaderReply]
  simp only [RequestType.GET_STATUS, RequestType.START, RequestType.STOP,
    RequestType.PAUSE, RequestType.RESUME] at ht ⊢
  have hsz : ¬ (6 : Nat) ≠ 4 + 1 + 1 := by decide
  rw [if_neg hsz]
  iterate 5
    rw [if_neg (by
      rw [ht]
      first
        | decide
        | assumption
        | (intro e; exact absurd e.symm (by assumption)))]
  rw [if_pos ht]
  split_ifs <;> rfl

theorem step_RESUME (env : BuildEnv) (hv : env.valid) (now : Int) (p : PImpl) (s : String)
    (more : List String) (hlen : s.length = 6)
    (ht : (DeserializeRequestHeader s).type = RequestType.RESUME) :
    serverLoopStep env now (some (s :: more)) p =
      ({ p with last_heartbeat := now,
                  status := if p.status = StatusType.PAUSED
                            then StatusType.RUNNING else p.status }, [[echoPart s]]) := by
  have hne := env.valid_ne hv
  simp only [ne_eq] at hne
  casesm* _ ∧ _
  simp only [serverLoopStep, hlen, RequestHeader.size, echoPart, SerializeHeaderReply]
  simp only [RequestType.GET_STATUS, RequestType.START, RequestType.STOP,
    RequestType.PAUSE, RequestType.RESUME] at ht ⊢
  have hsz : ¬ (6 : Nat) ≠ 4 + 1 + 1 := by decide
  rw [if_neg hsz]
  iterate 6
    rw [if_neg (by
      rw [ht]
      first
        | decide
        | assumption
        | (intro e; exact absurd e.symm (by assumption)))]
  rw [if_pos ht]
  split_ifs <;> rfl

theorem step_SET_TREE (env : BuildEnv) (hv : env.valid) (now : Int) (p : PImpl) (s : String)
    (more : List String) (hlen : s.length = 6)
    (ht : (DeserializeRequestHeader s).type = env.SET_TREE) :
    serverLoopStep env now (some (s :: more)) p =
      (if more.length + 1 ≠ 2 then
         ({ p with last_heartbeat := now }, [sendErrorReply "must be 2 parts message"])
       else if p.status ≠ StatusType.IDLE then
         ({ p with last_heartbeat := now }, [sendErrorReply "Cannot change tree while running"])
       else
         ({ p with last_heartbeat := now, tree_xml := (s :: more).getD 1 "" }, [[echoPart s]])) := by
  have hne := env.valid_ne hv
  simp only [ne_eq] at hne
  casesm* _ ∧ _
  simp only [serverLoopStep, hlen, RequestHeader.size, echoPart, SerializeHeaderReply]
  simp only [RequestType.GET_STATUS, RequestType.START, RequestType.STOP,
    RequestType.PAUSE, RequestType.RESUME] at ht ⊢
  have hsz : ¬ (6 : Nat) ≠ 4 + 1 + 1 := by decide
  rw [if_neg hsz]
  iterate 7
    rw [if_neg (by
      rw [ht]
      first
        | decide
        | assumption
        | (intro e; exact absurd e.symm (by assumption)))]
  rw [if_pos ht]
  rfl

theorem step_GET_TREE (env : BuildEnv) (hv : env.valid) (now : Int) (p : PImpl) (s : String)
    (more : List String) (hlen : s.length = 6)
    (ht : (DeserializeRequestHeader s).type = env.GET_TREE) :
    serverLoopStep env now (some (s :: more)) p =
      ({ p with last_heartbeat := now }, [[echoPart s, p.tree_xml]]) := by
  have hne := env.valid_ne hv
  simp only [ne_eq] at hne
  casesm* _ ∧ _
  simp only [serverLoopStep, hlen, RequestHeader.size, echoPart, SerializeHeaderReply]
  simp only [RequestType.GET_STATUS, RequestType.START, RequestType.STOP,
    RequestType.PAUSE, RequestType.RESUME] at ht ⊢
  have hsz : ¬ (6 : Nat) ≠ 4 + 1 + 1 := by decide
  rw [if_neg hsz]
  iterate 8
    rw [if_neg (by
      rw [ht]
      first
        | decide
        | assumption
        | (intro e; exact absurd e.symm (by assumption)))]
  rw [if_pos ht]
  rfl

theorem step_default (env : BuildEnv) (now : Int) (p : PImpl) (s : String)
    (more : List String) (hlen : s.length = 6)
    (ht : (DeserializeRequestHeader s).type ∉ env.commands) :
    serverLoopStep env now (some (s :: more)) p =
      ({ p with last_heartbeat := now }, [sendErrorReply "Request not recognized"]) := by
  simp only [BuildEnv.commands, List.mem_cons, List.mem_singleton, List.not_mem_nil, not_or,
    or_false] at ht
  obtain ⟨h1, h2, h3, h4, h5, h6, h7, h8, h9⟩ := ht
  simp only [serverLoopStep, hlen, RequestHeader.size]
  rw [if_neg (by decide), if_neg h1, if_neg h2, if_neg h3, if_neg h4, if_neg h5, if_neg h6,
    if_neg h7, if_neg h8, if_neg h9]

theorem step_wrong_size (env : BuildEnv) (now : Int) (p : PImpl) (s : String)
    (more : List String) (hlen : s.length ≠ 6) :
    serverLoopStep env now (some (s :: more)) p =
      ({ p with last_heartbeat := now },
       [sendErrorReply ("wrong request header: received size " ++ toString s.length ++
          ", expected size " ++ toString 6)]) := by
  simp only [serverLoopStep, RequestHeader.size]
  rw [if_pos hlen]

theorem echoPart_length (s : String) : (echoPart s).length = 6 := rfl

theorem echoPart_decode (s : String) :
    DeserializeRequestHeader (echoPart s) =
      { unique_id := (DeserializeRequestHeader s).unique_id,
        protocol := kProtocolID,
        type := (DeserializeRequestHeader s).type } := by
  have hr := DeserializeRequestHeader_inRange s
  apply DeserializeRequestHeader_SerializeHeader
  exact ⟨hr.1, (by decide : (2 : Nat) < 256), hr.2.2⟩

theorem echoPart_ne_error (s : String) : echoPart s ≠ "error" := by
  intro e
  have h := congrArg String.length e
  rw [echoPart_length] at h
  exact absurd h (by decide)

/-- With a 6-byte first part the pass sends exactly one message: the echoed
header alone, the echoed header with one payload part, or an error reply. -/
theorem step_reply_shape (env : BuildEnv) (now : Int) (p : PImpl) (s : String)
    (more : List String) (hlen : s.length = 6) :
    (serverLoopStep env now (some (s :: more)) p).2 = [[echoPart s]] ∨
    (∃ payload, (serverLoopStep env now (some (s :: more)) p).2 = [[echoPart s, payload]]) ∨
    (∃ msg, (serverLoopStep env now (some (s :: more)) p).2 = [sendErrorReply msg]) := by
  simp only [serverLoopStep, hlen, RequestHeader.size, echoPart, SerializeHeaderReply]
  have hsz : ¬ (6 : Nat) ≠ 4 + 1 + 1 := by decide
  rw [if_neg hsz]
  by_cases c1 : (DeserializeRequestHeader s).type = env.GET_BTCPP_VERSION
  · rw [if_pos c1]
    exact Or.inr (Or.inl ⟨_, rfl⟩)
  rw [if_neg c1]
  by_cases c2 : (DeserializeRequestHeader s).type = env.GET_MANAGER_VERSION
  · rw [if_pos c2]
    exact Or.inr (Or.inl ⟨_, rfl⟩)
  rw [if_neg c2]
  by_cases c3 : (DeserializeRequestHeader s).type = RequestType.GET_STATUS
  · rw [if_pos c3]
    exact Or.inr (Or.inl ⟨_, rfl⟩)
  rw [if_neg c3]
  by_cases c4 : (DeserializeRequestHeader s).type = RequestType.START
  · rw [if_pos c4]
    exact Or.inl rfl
  rw [if_neg c4]
  by_cases c5 : (DeserializeRequestHeader s).type = RequestType.STOP
  · rw [if_pos c5]
    by_cases g : p.status = StatusType.RUNNING ∨ p.status = StatusType.PAUSED
    · rw [if_pos g]
      exact Or.inl rfl
    · rw [if_neg g]
      exact Or.inl rfl
  rw [if_neg c5]
  by_cases c6 : (DeserializeRequestHeader s).type = RequestType.PAUSE
  · rw [if_pos c6]
    by_cases g : p.status = StatusType.RUNNING
    · rw [if_pos g]
      exact Or.inl rfl
    · rw [if_neg g]
      exact Or.inl rfl
  rw [if_neg c6]
  by_cases c7 : (DeserializeRequestHeader s).type = RequestType.RESUME
  · rw [if_pos c7]
    by_cases g : p.status = StatusType.PAUSED
    · rw [if_pos g]
      exact Or.inl rfl
    · rw [if_neg g]
      exact Or.inl rfl
  rw [if_neg c7]
  by_cases c8 : (DeserializeRequestHeader s).type = env.SET_TREE
  · rw [if_pos c8]
    by_cases g : (s :: more).length ≠ 2
    · rw [if_pos g]
      exact Or.inr (Or.inr ⟨_, rfl⟩)
    · rw [if_neg g]
      by_cases g2 : p.status ≠ StatusType.IDLE
      · rw [if_pos g2]
        exact Or.inr (Or.inr ⟨_, rfl⟩)
      · rw [if_neg g2]
        exact Or.inl rfl
  rw [if_neg c8]
  by_cases c9 : (DeserializeRequestHeader s).type = env.GET_TREE
  · rw [if_pos c9]
    exact Or.inr (Or.inl ⟨_, rfl⟩)
  rw [if_neg c9]
  exact Or.inr (Or.inr ⟨_, rfl⟩)

/-- The pass reads only the type and the unique_id of the request header. -/
theorem step_congr_header (env : BuildEnv) (now : Int) (p : PImpl) (s s' : String)
    (more : List String) (hlen : s.length = 6) (hlen' : s'.length = 6)
    (ht : (DeserializeRequestHeader s).type = (DeserializeRequestHeader s').type)
    (hu : (DeserializeRequestHeader s).unique_id = (DeserializeRequestHeader s').unique_id) :
    serverLoopStep env now (some (s :: more)) p =
      serverLoopStep env now (some (s' :: more)) p := by
  simp only [serverLoopStep, hlen, hlen', RequestHeader.size, SerializeHeaderReply, ht, hu,
    List.length_cons, List.getD_cons_succ]

/-- What a pass that received a request with at least one part does to the
state: it sets the timestamp and, besides, either nothing, or one of the four
status changes of the `switch`, or the replacement of the definition. -/
theorem step_state_cases (env : BuildEnv) (now : Int) (p : PImpl) (s : String)
    (more : List String) :
    (serverLoopStep env now (some (s :: more)) p).1 = { p with last_heartbeat := now } ∨
    (serverLoopStep env now (some (s :: more)) p).1 =
      { p with last_heartbeat := now, status := StatusType.STARTING } ∨
    ((p.status = StatusType.RUNNING ∨ p.status = StatusType.PAUSED) ∧
      (serverLoopStep env now (some (s :: more)) p).1 =
        { p with last_heartbeat := now, status := StatusType.STOPPING }) ∨
    (p.status = StatusType.RUNNING ∧
      (serverLoopStep env now (some (s :: more)) p).1 =
        { p with last_heartbeat := now, status := StatusType.PAUSED }) ∨
    (p.status = StatusType.PAUSED ∧
      (serverLoopStep env now (some (s :: more)) p).1 =
        { p with last_heartbeat := now, status := StatusType.RUNNING }) ∨
    (p.status = StatusType.IDLE ∧
      ∃ x, (serverLoopStep env now (some (s :: more)) p).1 =
        { p with last_heartbeat := now, tree_xml := x }) := by
  by_cases hlen : s.length = 6
  · simp only [serverLoopStep, hlen, RequestHeader.size, SerializeHeaderReply]
    have hsz : ¬ (6 : Nat) ≠ 4 + 1 + 1 := by decide
    rw [if_neg hsz]
    by_cases c1 : (DeserializeRequestHeader s).type = env.GET_BTCPP_VERSION
    · rw [if_pos c1]
      exact Or.inl rfl
    rw [if_neg c1]
    by_cases c2 : (DeserializeRequestHeader s).type = env.GET_MANAGER_VERSION
    · rw [if_pos c2]
      exact Or.inl rfl
    rw [if_neg c2]
    by_cases c3 : (DeserializeRequestHeader s).type = RequestType.GET_STATUS
    · rw [if_pos c3]
      exact Or.inl rfl
    rw [if_neg c3]
    by_cases c4 : (DeserializeRequestHeader s).type = RequestType.START
    · rw [if_pos c4]
      exact Or.inr (Or.inl rfl)
    rw [if_neg c4]
    by_cases c5 : (DeserializeRequestHeader s).type = RequestType.STOP
    · rw [if_pos c5]
      by_cases g : p.status = StatusType.RUNNING ∨ p.status = StatusType.PAUSED
      · rw [if_pos g]
        exact Or.inr (Or.inr (Or.inl ⟨g, rfl⟩))
      · rw [if_neg g]
        exact Or.inl rfl
    rw [if_neg c5]
    by_cases c6 : (DeserializeRequestHeader s).type = RequestType.PAUSE
    · rw [if_pos c6]
      by_cases g : p.status = StatusType.RUNNING
      · rw [if_pos g]
        exact Or.inr (Or.inr (Or.inr (Or.inl ⟨g, rfl⟩)))
      · rw [if_neg g]
        exact Or.inl rfl
    rw [if_neg c6]
    by_cases c7 : (DeserializeRequestHeader s).type = RequestType.RESUME
    · rw [if_pos c7]
      by_cases g : p.status = StatusType.PAUSED
      · rw [if_pos g]
        exact Or.inr (Or.inr (Or.inr (Or.inr (Or.inl ⟨g, rfl⟩))))
      · rw [if_neg g]
        exact Or.inl rfl
    rw [if_neg c7]
    by_cases c8 : (DeserializeRequestHeader s).type = env.SET_TREE
    · rw [if_pos c8]
      by_cases g : (s :: more).length ≠ 2
      · rw [if_pos g]
        exact Or.inl rfl
      · rw [if_neg g]
        by_cases g2 : p.status ≠ StatusType.IDLE
        · rw [if_pos g2]
          exact Or.inl rfl
        · rw [if_neg g2]
          exact Or.inr (Or.inr (Or.inr (Or.inr (Or.inr ⟨not_not.mp g2, _, rfl⟩))))
    rw [if_neg c8]
    by_cases c9 : (DeserializeRequestHeader s).type = env.GET_TREE
    · rw [if_pos c9]
      exact Or.inl rfl
    rw [if_neg c9]
    exact Or.inl rfl
  · rw [step_wrong_size env now p s more hlen]
    exact Or.inl rfl

theorem step_not_received (env : BuildEnv) (now : Int) (p : PImpl) (recv : Option (List String))
    (h : recv = none ∨ recv = some []) :
    serverLoopStep env now recv p = (p, []) := by
  rcases h with h | h <;> rw [h] <;> rfl

theorem step_last_heartbeat (env : BuildEnv) (now : Int) (p : PImpl) (s : String)
    (more : List String) :
    (serverLoopStep env now (some (s :: more)) p).1.last_heartbeat = now := by
  rcases step_state_cases env now p s more with
    h | h | ⟨-, h⟩ | ⟨-, h⟩ | ⟨-, h⟩ | ⟨-, x, h⟩ <;> rw [h]

theorem step_max_heartbeat_delay (env : BuildEnv) (now : Int) (p : PImpl) (s : String)
    (more : List String) :
    (serverLoopStep env now (some (s :: more)) p).1.max_heartbeat_delay =
      p.max_heartbeat_delay := by
  rcases step_state_cases env now p s more with
    h | h | ⟨-, h⟩ | ⟨-, h⟩ | ⟨-, h⟩ | ⟨-, x, h⟩ <;> rw [h]

theorem step_active_server (env : BuildEnv) (now : Int) (recv : Option (List String))
    (p : PImpl) :
    (serverLoopStep env now recv p).1.active_server = p.active_server := by
  rcases recv with _ | (_ | ⟨s, more⟩)
  · rfl
  · rfl
  · rcases step_state_cases env now p s more with
      h | h | ⟨-, h⟩ | ⟨-, h⟩ | ⟨-, h⟩ | ⟨-, x, h⟩ <;> rw [h]

/-- The status after a pass, whatever was received: the status before, or the
result of one of the four status changes of the `switch`. -/
theorem step_status_cases (env : BuildEnv) (now : Int) (recv : Option (List String))
    (p : PImpl) :
    (serverLoopStep env now recv p).1.status = p.status ∨
    (serverLoopStep env now recv p).1.status = StatusType.STARTING ∨
    ((p.status = StatusType.RUNNING ∨ p.status = StatusType.PAUSED) ∧
      (serverLoopStep env now recv p).1.status = StatusType.STOPPING) ∨
    (p.status = StatusType.RUNNING ∧
      (serverLoopStep env now recv p).1.status = StatusType.PAUSED) ∨
    (p.status = StatusType.PAUSED ∧
      (serverLoopStep env now recv p).1.status = StatusType.RUNNING) := by
  rcases recv with _ | (_ | ⟨s, more⟩)
  · exact Or.inl rfl
  · exact Or.inl rfl
  · rcases step_state_cases env now p s more with
      h | h | ⟨g, h⟩ | ⟨g, h⟩ | ⟨g, h⟩ | ⟨g, x, h⟩ <;> rw [h]
    · exact Or.inl rfl
    · exact Or.inr (Or.inl rfl)
    · exact Or.inr (Or.inr (Or.inl ⟨g, rfl⟩))
    · exact Or.inr (Or.inr (Or.inr (Or.inl ⟨g, rfl⟩)))
    · exact Or.inr (Or.inr (Or.inr (Or.inr ⟨g, rfl⟩)))
    · exact Or.inl rfl

/-- A pass keeps the status within IDLE and STARTING. -/
theorem step_idle_or_starting (env : BuildEnv) (now : Int) (recv : Option (List String))
    (p : PImpl) (h : p.status = StatusType.IDLE ∨ p.status = StatusType.STARTING) :
    (serverLoopStep env now recv p).1.status = StatusType.IDLE ∨
    (serverLoopStep env now recv p).1.status = StatusType.STARTING := by
  rcases step_status_cases env now recv p with
    e | e | ⟨g, -⟩ | ⟨g, -⟩ | ⟨g, -⟩
  · rw [e]; exact h
  · exact Or.inr e
  · rcases h with h | h <;> rcases g with g | g <;> rw [h] at g <;> exact absurd g (by decide)
  · rcases h with h | h <;> rw [h] at g <;> exact absurd g (by decide)
  · rcases h with h | h <;> rw [h] at g <;> exact absurd g (by decide)

/-- A pass keeps the status STARTING. -/
theorem step_starting (env : BuildEnv) (now : Int) (recv : Option (List String))
    (p : PImpl) (h : p.status = StatusType.STARTING) :
    (serverLoopStep env now recv p).1.status = StatusType.STARTING := by
  rcases step_status_cases env now recv p with
    e | e | ⟨g, -⟩ | ⟨g, -⟩ | ⟨g, -⟩
  · rw [e]; exact h
  · exact e
  · rcases g with g | g <;> rw [h] at g <;> exact absurd g (by decide)
  · rw [h] at g; exact absurd g (by decide)
  · rw [h] at g; exact absurd g (by decide)

theorem serverLoopPasses_append (env : BuildEnv) (a b : List Pass) (p : PImpl) :
    (serverLoopPasses env (a ++ b) p).1 =
      (serverLoopPasses env b (serverLoopPasses env a p).1).1 := by
  induction a generalizing p with
  | nil => rfl
  | cons e es ih =>
    by_cases hact : p.active_server = true
    · simp only [List.cons_append, serverLoopPasses, hact, if_true]
      exact ih _
    · simp only [List.cons_append, serverLoopPasses, hact, if_false, Bool.false_eq_true]
      cases b with
      | nil => rfl
      | cons f fs => simp only [serverLoopPasses, hact, if_false, Bool.false_eq_true]

theorem serverLoopPasses_idle_or_starting (env : BuildEnv) (passes : List Pass) (p : PImpl)
    (h : p.status = StatusType.IDLE ∨ p.status = StatusType.STARTING) :
    (serverLoopPasses env passes p).1.status = StatusType.IDLE ∨
    (serverLoopPasses env passes p).1.status = StatusType.STARTING := by
  induction passes generalizing p with
  | nil => exact h
  | cons e es ih =>
    by_cases hact : p.active_server = true
    · simp only [serverLoopPasses, hact, if_true]
      exact ih _ (step_idle_or_starting env e.now e.recv p h)
    · simp only [serverLoopPasses, hact, if_false, Bool.false_eq_true]
      exact h

theorem serverLoopPasses_starting (env : BuildEnv) (passes : List Pass) (p : PImpl)
    (h : p.status = StatusType.STARTING) :
    (serverLoopPasses env passes p).1.status = StatusType.STARTING := by
  induction passes generalizing p with
  | nil => exact h
  | cons e es ih =>
    by_cases hact : p.active_server = true
    · simp only [serverLoopPasses, hact, if_true]
      exact ih _ (step_starting env e.now e.recv p h)
    · simp only [serverLoopPasses, hact, if_false, Bool.false_eq_true]
      exact h

theorem wrapInt64_of_fits (x : Int) (h : fitsInt64 x) : wrapInt64 x = x := by
  unfold fitsInt64 at h
  unfold wrapInt64
  omega

/-- The tick of the monitor when neither the subtraction of the time points
nor the conversion of the delay to clock ticks overflows. -/
theorem heartbeatLoopStep_of_fits (now : Int) (p : PImpl) (prev : Bool)
    (he : fitsInt64 (now - p.last_heartbeat))
    (hd : fitsInt64 (p.max_heartbeat_delay * ticksPerMillisecond)) :
    heartbeatLoopStep now p prev =
      decide (now - p.last_heartbeat < p.max_heartbeat_delay * ticksPerMillisecond) := by
  simp only [heartbeatLoopStep, ite_self, wrapInt64_of_fits _ he, wrapInt64_of_fits _ hd]

end Manager

/-! ## The header codec -/

/-- C1. Header round trip: for every header whose fields fit their types (any
protocol byte, any request-type byte, any 32-bit unique_id), decoding the
encoding gives back the same protocol, the same type and the same unique_id. -/
theorem header_round_trip (h : RequestHeader) (hr : h.inRange) :
    (DeserializeRequestHeader (SerializeHeader h)).protocol = h.protocol ∧
    (DeserializeRequestHeader (SerializeHeader h)).type = h.type ∧
    (DeserializeRequestHeader (SerializeHeader h)).unique_id = h.unique_id := by
  rw [DeserializeRequestHeader_SerializeHeader h hr]
  exact ⟨rfl, rfl, rfl⟩

theorem header_round_trip_witness :
    sampleStart.inRange ∧
    (DeserializeRequestHeader (SerializeHeader sampleStart)).protocol = 2 ∧
    (DeserializeRequestHeader (SerializeHeader sampleStart)).type = 83 ∧
    (DeserializeRequestHeader (SerializeHeader sampleStart)).unique_id = 42 :=
  ⟨by decide, header_round_trip sampleStart (by decide)⟩

/-- C9. Encoding layout: the encoding of a header whose fields fit their types
is exactly 6 bytes long, which is `RequestHeader::size()`; byte 0 is the
protocol, byte 1 the numeric value of the type, and byte `2 + i` is
`(unique_id >> 8 i) mod 256` for `i < 4` (little-endian). -/
theorem serialize_header_layout (h : RequestHeader) (hr : h.inRange) :
    (SerializeHeader h).length = 6 ∧
    (SerializeHeader h).length = RequestHeader.size ∧
    ((SerializeHeader h).data.getD 0 '\x00').toNat = h.protocol ∧
    ((SerializeHeader h).data.getD 1 '\x00').toNat = h.type ∧
    ∀ i, i < 4 →
      ((SerializeHeader h).data.getD (2 + i) '\x00').toNat = (h.unique_id >>> (8 * i)) % 256 := by
  obtain ⟨hu, hp, ht⟩ := hr
  have hb : ∀ n, (Char.ofNat (n % 256)).toNat = n % 256 :=
    fun n => toNat_ofNat_byte _ (Nat.mod_lt _ (by decide))
  refine ⟨rfl, rfl, ?_, ?_, ?_⟩
  · rw [SerializeHeader_data]
    show (Char.ofNat (h.protocol % 256)).toNat = h.protocol
    rw [hb, Nat.mod_eq_of_lt hp]
  · rw [SerializeHeader_data]
    show (Char.ofNat (h.type % 256)).toNat = h.type
    rw [hb, Nat.mod_eq_of_lt ht]
  · intro i hi
    rw [SerializeHeader_data]
    interval_cases i
    · show (Char.ofNat (h.unique_id % 256)).toNat = _
      rw [hb]; simp
    · show (Char.ofNat (h.unique_id / 256 % 256)).toNat = _
      rw [hb, Nat.shiftRight_eq_div_pow]
    · show (Char.ofNat (h.unique_id / 256 / 256 % 256)).toNat = _
      rw [hb, Nat.shiftRight_eq_div_pow, Nat.div_div_eq_div_mul]
    · show (Char.ofNat (h.unique_id / 256 / 256 / 256 % 256)).toNat = _
      rw [hb, Nat.shiftRight_eq_div_pow, Nat.div_div_eq_div_mul, Nat.div_div_eq_div_mul]

theorem serialize_header_layout_witness :
    sampleStart.inRange ∧ (SerializeHeader sampleStart).length = 6 :=
  ⟨by decide, (serialize_header_layout sampleStart (by decide)).1⟩

/-- C8 (counterexample). A 7-byte buffer is not rejected: the decoder returns
the header held in its first six bytes. -/
theorem decode_long_buffer_returns_header :
    ("\x02S*\x00\x00\x00!" : String).length = 7 ∧
    DeserializeRequestHeader "\x02S*\x00\x00\x00!" =
      { unique_id := 42, protocol := 2, type := 83 } := by
  decide

/-- C8 (amended). The decoder checks no length and has no failure mode: for
every buffer of at least 6 bytes (exactly 6, or longer) it returns a header,
namely the header held in the first six bytes, whose fields fit their types
and whose encoding is those six bytes. -/
theorem decode_checks_no_length (buffer : String) (h6 : 6 ≤ buffer.length) :
    DeserializeRequestHeader buffer =
      DeserializeRequestHeader (String.mk (buffer.data.take 6)) ∧
    (DeserializeRequestHeader buffer).inRange ∧
    ((∀ c ∈ buffer.data.take 6, c.toNat < 256) →
      SerializeHeader (DeserializeRequestHeader buffer) = String.mk (buffer.data.take 6)) := by
  obtain ⟨data⟩ := buffer
  rcases data with _ | ⟨c0, _ | ⟨c1, _ | ⟨c2, _ | ⟨c3, _ | ⟨c4, _ | ⟨c5, l⟩⟩⟩⟩⟩⟩ <;>
    simp only [String.length, List.length_cons, List.length_nil] at h6 <;>
    try omega
  refine ⟨rfl, DeserializeRequestHeader_inRange _, ?_⟩
  intro hb
  simp only [List.take_succ_cons, List.take_zero, List.mem_cons, List.mem_singleton,
    List.not_mem_nil, or_false, forall_eq_or_imp, forall_eq] at hb
  obtain ⟨b0, b1, b2, b3, b4, b5⟩ := hb
  have e : ∀ h : RequestHeader, SerializeHeader h = String.mk (SerializeHeader h).data :=
    fun _ => rfl
  rw [e, SerializeHeader_data, DeserializeRequestHeader_cons]
  show String.mk _ = String.mk [c0, c1, c2, c3, c4, c5]
  refine congrArg String.mk ?_
  have k : ∀ (c : Char) (n : Nat), n = c.toNat → Char.ofNat n = c := by
    intro c n hn
    subst hn
    exact Char.ofNat_toNat c
  simp only [List.cons.injEq, and_true]
  exact ⟨k c0 _ (by omega), k c1 _ (by omega), k c2 _ (by omega), k c3 _ (by omega),
    k c4 _ (by omega), k c5 _ (by omega)⟩

theorem decode_checks_no_length_witness :
    6 ≤ ("\x02S*\x00\x00\x00!" : String).length ∧
    DeserializeRequestHeader "\x02S*\x00\x00\x00!" =
      DeserializeRequestHeader (String.mk (("\x02S*\x00\x00\x00!" : String).data.take 6)) :=
  ⟨by decide, (decode_checks_no_length "\x02S*\x00\x00\x00!" (by decide)).1⟩

/-! ## The server loop -/

/-- C2. Transition table: for a request with a 6-byte header, in every status,
the status after the pass is STARTING for START; for STOP it is STOPPING from
RUNNING or PAUSED and unchanged otherwise; for PAUSE it is PAUSED from RUNNING
and unchanged otherwise; for RESUME it is RUNNING from PAUSED and unchanged
otherwise; for GET_STATUS it is unchanged. -/
theorem transition_table (env : BuildEnv) (hv : env.valid) (now : Int) (p : PImpl)
    (s : String) (more : List String) (hlen : s.length = 6) :
    ((DeserializeRequestHeader s).type = RequestType.START →
      (Manager.serverLoopStep env now (some (s :: more)) p).1.status = StatusType.STARTING) ∧
    ((DeserializeRequestHeader s).type = RequestType.STOP →
      (Manager.serverLoopStep env now (some (s :: more)) p).1.status =
        if p.status = StatusType.RUNNING ∨ p.status = StatusType.PAUSED
        then StatusType.STOPPING else p.status) ∧
    ((DeserializeRequestHeader s).type = RequestType.PAUSE →
      (Manager.serverLoopStep env now (some (s :: more)) p).1.status =
        if p.status = StatusType.RUNNING then StatusType.PAUSED else p.status) ∧
    ((DeserializeRequestHeader s).type = RequestType.RESUME →
      (Manager.serverLoopStep env now (some (s :: more)) p).1.status =
        if p.status = StatusType.PAUSED then StatusType.RUNNING else p.status) ∧
    ((DeserializeRequestHeader s).type = RequestType.GET_STATUS →
      (Manager.serverLoopStep env now (some (s :: more)) p).1.status = p.status) := by
  refine ⟨fun ht => ?_, fun ht => ?_, fun ht => ?_, fun ht => ?_, fun ht => ?_⟩
  · rw [Manager.step_START env hv now p s more hlen ht]
  · rw [Manager.step_STOP env hv now p s more hlen ht]
  · rw [Manager.step_PAUSE env hv now p s more hlen ht]
  · rw [Manager.step_RESUME env hv now p s more hlen ht]
  · rw [Manager.step_GET_STATUS env hv now p s more hlen ht]

theorem transition_table_witness :
    sampleEnv.valid ∧ (SerializeHeader sampleStart).length = 6 ∧
    (Manager.serverLoopStep sampleEnv 10 (some [SerializeHeader sampleStart])
      sampleRunning).1.status = StatusType.STARTING :=
  ⟨by decide, by decide,
   (transition_table sampleEnv (by decide) 10 sampleRunning (SerializeHeader sampleStart) []
      (by decide)).1 (by decide)⟩

/-- C3. Guarded replace: for a SET_DEFINITION request with a 6-byte header, the
pass stores the second message part as the task definition and sends the
header-only reply when the status is IDLE and the request has exactly two
parts; the reply is a non-error reply if and only if that is the case; and in
every other case the reply is an error reply and the task definition (and the
status) after the pass equal those before. -/
theorem guarded_replace (env : BuildEnv) (hv : env.valid) (now : Int) (p : PImpl)
    (s : String) (more : List String) (hlen : s.length = 6)
    (ht : (DeserializeRequestHeader s).type = env.SET_TREE) :
    (∀ x, p.status = StatusType.IDLE → more = [x] →
      Manager.serverLoopStep env now (some (s :: more)) p =
        ({ p with last_heartbeat := now, tree_xml := x },
         [[SerializeHeader { unique_id := (DeserializeRequestHeader s).unique_id,
                             protocol := kProtocolID,
                             type := (DeserializeRequestHeader s).type }]])) ∧
    ((∀ m ∈ (Manager.serverLoopStep env now (some (s :: more)) p).2,
        m.head? ≠ some "error") ↔
      (p.status = StatusType.IDLE ∧ (s :: more).length = 2)) ∧
    (¬ (p.status = StatusType.IDLE ∧ (s :: more).length = 2) →
      (Manager.serverLoopStep env now (some (s :: more)) p).1.tree_xml = p.tree_xml ∧
      (Manager.serverLoopStep env now (some (s :: more)) p).1.status = p.status ∧
      ∃ msg, (Manager.serverLoopStep env now (some (s :: more)) p).2 = [["error", msg]]) := by
  rw [Manager.step_SET_TREE env hv now p s more hlen ht]
  refine ⟨?_, ?_, ?_⟩
  · intro x hs hm
    subst hm
    rw [if_neg (by simp), if_neg (by simp [hs])]
    rfl
  · by_cases g : more.length + 1 ≠ 2
    · rw [if_pos g]
      constructor
      · intro h
        exact absurd rfl (h _ (List.mem_singleton.mpr rfl))
      · intro h
        exact absurd h.2 g
    · rw [if_neg g]
      by_cases g2 : p.status ≠ StatusType.IDLE
      · rw [if_pos g2]
        constructor
        · intro h
          exact absurd rfl (h _ (List.mem_singleton.mpr rfl))
        · intro h
          exact absurd h.1 g2
      · rw [if_neg g2]
        constructor
        · intro _
          exact ⟨not_not.mp g2, not_not.mp g⟩
        · intro _ m hm
          rw [List.mem_singleton.mp hm]
          intro e
          exact Manager.echoPart_ne_error s (Option.some.inj e)
  · intro h
    by_cases g : more.length + 1 ≠ 2
    · rw [if_pos g]
      exact ⟨rfl, rfl, _, rfl⟩
    · rw [if_neg g]
      by_cases g2 : p.status ≠ StatusType.IDLE
      · rw [if_pos g2]
        exact ⟨rfl, rfl, _, rfl⟩
      · exact absurd ⟨not_not.mp g2, not_not.mp g⟩ h

theorem guarded_replace_witness :
    sampleEnv.valid ∧ (SerializeHeader sampleSetTree).length = 6 ∧
    (DeserializeRequestHeader (SerializeHeader sampleSetTree)).type = sampleEnv.SET_TREE ∧
    (Manager.serverLoopStep sampleEnv 10 (some [SerializeHeader sampleSetTree, "X"])
      sampleIdle).1.tree_xml = "X" :=
  ⟨by decide, by decide, by decide,
   congrArg (fun r => r.1.tree_xml)
     ((guarded_replace sampleEnv (by decide) 10 sampleIdle (SerializeHeader sampleSetTree)
        ["X"] (by decide) (by decide)).1 "X" rfl rfl)⟩

/-- C5. Evaluation at the failing input: a START request whose protocol byte is
1, not the service's version 2, sent while IDLE, is answered with the normal
header-only reply, whose protocol byte is 2, not with an error reply, and the
status becomes STARTING. -/
theorem version_mismatch_is_processed :
    SerializeHeader sampleStartV1 = "\x01S*\x00\x00\x00" ∧
    SerializeHeader sampleStart = "\x02S*\x00\x00\x00" ∧
    (SerializeHeader sampleStartV1).length = 6 ∧
    (DeserializeRequestHeader (SerializeHeader sampleStartV1)).protocol = 1 ∧
    (1 : Nat) ≠ kProtocolID ∧
    Manager.serverLoopStep sampleEnv 10 (some [SerializeHeader sampleStartV1]) sampleIdle =
      ({ sampleIdle with last_heartbeat := 10, status := StatusType.STARTING },
       [[SerializeHeader sampleStart]]) := by
  decide

/-- The server loop never examines the protocol byte: a request with a 6-byte
header whose protocol byte is anything, in particular different from the
service's version 2, gets the same reply and leaves the same state as the
request with the same type, unique_id and further parts whose protocol byte
is 2. -/
theorem protocol_byte_is_ignored (env : BuildEnv) (now : Int) (p : PImpl)
    (h : RequestHeader) (more : List String) (hr : h.inRange) :
    Manager.serverLoopStep env now (some (SerializeHeader h :: more)) p =
      Manager.serverLoopStep env now
        (some (SerializeHeader { h with protocol := kProtocolID } :: more)) p := by
  have hr2 : ({ h with protocol := kProtocolID } : RequestHeader).inRange :=
    ⟨hr.1, (by decide : (2 : Nat) < 256), hr.2.2⟩
  apply Manager.step_congr_header env now p _ _ more (SerializeHeader_length _)
    (SerializeHeader_length _)
  · rw [DeserializeRequestHeader_SerializeHeader h hr,
      DeserializeRequestHeader_SerializeHeader _ hr2]
  · rw [DeserializeRequestHeader_SerializeHeader h hr,
      DeserializeRequestHeader_SerializeHeader _ hr2]

/-- C6. Reply header construction: for every request with a 6-byte header,
every reply of the pass that is not an error reply has as first part the 6-byte
encoding of the header whose protocol is the service's version 2 and whose
unique_id and type are those of the request, and that part decodes to exactly
this header; for instance START with unique_id 42 and any protocol byte while
IDLE yields the reply header {2, START, 42} and the status STARTING. -/
theorem reply_header_construction (env : BuildEnv) (hv : env.valid) (now : Int) (p : PImpl)
    (s : String) (more : List String) (hlen : s.length = 6) :
    (∀ m ∈ (Manager.serverLoopStep env now (some (s :: more)) p).2,
      m.head? ≠ some "error" →
      m.head? = some (SerializeHeader
        { unique_id := (DeserializeRequestHeader s).unique_id,
          protocol := kProtocolID,
          type := (DeserializeRequestHeader s).type })) ∧
    (SerializeHeader
        { unique_id := (DeserializeRequestHeader s).unique_id,
          protocol := kProtocolID,
          type := (DeserializeRequestHeader s).type }).length = 6 ∧
    DeserializeRequestHeader (SerializeHeader
        { unique_id := (DeserializeRequestHeader s).unique_id,
          protocol := kProtocolID,
          type := (DeserializeRequestHeader s).type }) =
      { unique_id := (DeserializeRequestHeader s).unique_id,
        protocol := 2,
        type := (DeserializeRequestHeader s).type } ∧
    (∀ protocol, protocol < 256 → p.status = StatusType.IDLE →
      Manager.serverLoopStep env now
          (some (SerializeHeader
            { unique_id := 42, protocol := protocol, type := RequestType.START } :: more)) p =
        ({ p with last_heartbeat := now, status := StatusType.STARTING },
         [[SerializeHeader { unique_id := 42, protocol := 2, type := RequestType.START }]])) := by
  refine ⟨?_, rfl, Manager.echoPart_decode s, ?_⟩
  · intro m hm hne
    rcases Manager.step_reply_shape env now p s more hlen with h | ⟨x, h⟩ | ⟨msg, h⟩ <;>
      rw [h] at hm <;> rw [List.mem_singleton.mp hm] at hne ⊢
    · rfl
    · rfl
    · exact absurd rfl hne
  · intro protocol hp _
    have hr : ({ unique_id := 42, protocol := protocol, type := RequestType.START } :
        RequestHeader).inRange :=
      ⟨(by decide : (42 : Nat) < 2 ^ 32), hp, (by decide : (83 : Nat) < 256)⟩
    have hd := DeserializeRequestHeader_SerializeHeader _ hr
    rw [Manager.step_START env hv now p _ more (SerializeHeader_length _) (by rw [hd])]
    simp only [Manager.echoPart, hd]

theorem reply_header_construction_witness :
    sampleEnv.valid ∧ (SerializeHeader sampleStartV1).length = 6 ∧
    DeserializeRequestHeader (SerializeHeader
        { unique_id := (DeserializeRequestHeader (SerializeHeader sampleStartV1)).unique_id,
          protocol := kProtocolID,
          type := (DeserializeRequestHeader (SerializeHeader sampleStartV1)).type }) =
      { unique_id := (DeserializeRequestHeader (SerializeHeader sampleStartV1)).unique_id,
        protocol := 2,
        type := (DeserializeRequestHeader (SerializeHeader sampleStartV1)).type } :=
  ⟨by decide, by decide,
   (reply_header_construction sampleEnv (by decide) 10 sampleIdle
      (SerializeHeader sampleStartV1) [] (by decide)).2.2.1⟩

/-- C7. Framing error: for every request whose first part has a length `n`
different from 6, the pass sends an error reply of exactly two parts, "error"
and the message "wrong request header: received size n, expected size 6", and
leaves the status and the task definition unchanged; for a 4-byte frame the
message names the sizes 4 and 6. -/
theorem framing_error (env : BuildEnv) (now : Int) (p : PImpl) (s : String)
    (more : List String) (hlen : s.length ≠ 6) :
    (Manager.serverLoopStep env now (some (s :: more)) p).2 =
      [["error", "wrong request header: received size " ++ toString s.length ++
                 ", expected size " ++ toString RequestHeader.size]] ∧
    toString RequestHeader.size = "6" ∧
    (Manager.serverLoopStep env now (some (s :: more)) p).1.status = p.status ∧
    (Manager.serverLoopStep env now (some (s :: more)) p).1.tree_xml = p.tree_xml ∧
    (s.length = 4 →
      (Manager.serverLoopStep env now (some (s :: more)) p).2 =
        [["error", "wrong request header: received size 4, expected size 6"]]) := by
  rw [Manager.step_wrong_size env now p s more hlen]
  refine ⟨rfl, by decide, rfl, rfl, ?_⟩
  intro h4
  rw [h4]
  rfl

theorem framing_error_witness :
    ("\x02S*\x00" : String).length ≠ 6 ∧
    (Manager.serverLoopStep sampleEnv 10 (some ["\x02S*\x00"]) sampleRunning).2 =
      [["error", "wrong request header: received size 4, expected size 6"]] :=
  ⟨by decide, (framing_error sampleEnv 10 sampleRunning "\x02S*\x00" [] (by decide)).2.2.2.2
    (by decide)⟩

/-- C10. Unrecognized request: for every request with a 6-byte header whose
type byte is the UNDEFINED sentinel 0 or, more generally, none of the nine
commands, in every status, the pass sends the error reply
("error", "Request not recognized") and leaves the status and the task
definition unchanged. -/
theorem unrecognized_request (env : BuildEnv) (hv : env.valid) (now : Int) (p : PImpl)
    (s : String) (more : List String) (hlen : s.length = 6)
    (ht : (DeserializeRequestHeader s).type = RequestType.UNDEFINED ∨
          (DeserializeRequestHeader s).type ∉ env.commands) :
    (Manager.serverLoopStep env now (some (s :: more)) p).2 =
      [["error", "Request not recognized"]] ∧
    (Manager.serverLoopStep env now (some (s :: more)) p).1.status = p.status ∧
    (Manager.serverLoopStep env now (some (s :: more)) p).1.tree_xml = p.tree_xml := by
  have hnot : (DeserializeRequestHeader s).type ∉ env.commands := by
    rcases ht with h0 | h
    · rw [h0]
      intro hmem
      have hnd : env.labels.Nodup := hv.1
      rw [BuildEnv.labels, List.nodup_append] at hnd
      exact hnd.2.2 hmem (List.mem_singleton.mpr rfl)
    · exact h
  rw [Manager.step_default env now p s more hlen hnot]
  exact ⟨rfl, rfl, rfl⟩

theorem unrecognized_request_witness :
    sampleEnv.valid ∧ (SerializeHeader sampleUndefined).length = 6 ∧
    (Manager.serverLoopStep sampleEnv 10 (some [SerializeHeader sampleUndefined])
      sampleRunning).2 = [["error", "Request not recognized"]] :=
  ⟨by decide, by decide,
   (unrecognized_request sampleEnv (by decide) 10 sampleRunning
      (SerializeHeader sampleUndefined) [] (by decide) (Or.inl (by decide))).1⟩

/-- C11. Control acknowledgements are header-only: for every status and every
START, STOP, PAUSE or RESUME request with a 6-byte header the pass sends one
reply of exactly one part, the echoed header, and leaves the task definition
unchanged; a STOP outside RUNNING and PAUSED, a PAUSE outside RUNNING and a
RESUME outside PAUSED also leave the status unchanged, and are answered with
that same header-only reply, not with an error reply. -/
theorem control_ack_header_only (env : BuildEnv) (hv : env.valid) (now : Int) (p : PImpl)
    (s : String) (more : List String) (hlen : s.length = 6)
    (ht : (DeserializeRequestHeader s).type = RequestType.START ∨
          (DeserializeRequestHeader s).type = RequestType.STOP ∨
          (DeserializeRequestHeader s).type = RequestType.PAUSE ∨
          (DeserializeRequestHeader s).type = RequestType.RESUME) :
    (Manager.serverLoopStep env now (some (s :: more)) p).2 = [[Manager.echoPart s]] ∧
    (∀ msg, (Manager.serverLoopStep env now (some (s :: more)) p).2 ≠ [["error", msg]]) ∧
    (Manager.serverLoopStep env now (some (s :: more)) p).1.tree_xml = p.tree_xml ∧
    ((DeserializeRequestHeader s).type = RequestType.STOP →
      p.status ≠ StatusType.RUNNING → p.status ≠ StatusType.PAUSED →
      (Manager.serverLoopStep env now (some (s :: more)) p).1.status = p.status) ∧
    ((DeserializeRequestHeader s).type = RequestType.PAUSE →
      p.status ≠ StatusType.RUNNING →
      (Manager.serverLoopStep env now (some (s :: more)) p).1.status = p.status) ∧
    ((DeserializeRequestHeader s).type = RequestType.RESUME →
      p.status ≠ StatusType.PAUSED →
      (Manager.serverLoopStep env now (some (s :: more)) p).1.status = p.status) := by
  have hsent : (Manager.serverLoopStep env now (some (s :: more)) p).2 =
      [[Manager.echoPart s]] := by
    rcases ht with h | h | h | h
    · rw [Manager.step_START env hv now p s more hlen h]
    · rw [Manager.step_STOP env hv now p s more hlen h]
    · rw [Manager.step_PAUSE env hv now p s more hlen h]
    · rw [Manager.step_RESUME env hv now p s more hlen h]
  have htree : (Manager.serverLoopStep env now (some (s :: more)) p).1.tree_xml =
      p.tree_xml := by
    rcases ht with h | h | h | h
    · rw [Manager.step_START env hv now p s more hlen h]
    · rw [Manager.step_STOP env hv now p s more hlen h]
    · rw [Manager.step_PAUSE env hv now p s more hlen h]
    · rw [Manager.step_RESUME env hv now p s more hlen h]
  refine ⟨hsent, ?_, htree, ?_, ?_, ?_⟩
  · intro msg e
    rw [hsent] at e
    have hl : ([1] : List Nat) = [2] :=
      congrArg (fun l => (l.map List.length)) e
    exact absurd hl (by decide)
  · intro h n1 n2
    rw [Manager.step_STOP env hv now p s more hlen h]
    show (if p.status = StatusType.RUNNING ∨ p.status = StatusType.PAUSED
      then StatusType.STOPPING else p.status) = p.status
    rw [if_neg (fun g => g.elim n1 n2)]
  · intro h n1
    rw [Manager.step_PAUSE env hv now p s more hlen h]
    show (if p.status = StatusType.RUNNING then StatusType.PAUSED else p.status) = p.status
    rw [if_neg n1]
  · intro h n1
    rw [Manager.step_RESUME env hv now p s more hlen h]
    show (if p.status = StatusType.PAUSED then StatusType.RUNNING else p.status) = p.status
    rw [if_neg n1]

theorem control_ack_header_only_witness :
    sampleEnv.valid ∧ (SerializeHeader samplePause).length = 6 ∧
    (Manager.serverLoopStep sampleEnv 10 (some [SerializeHeader samplePause]) sampleIdle).2 =
      [[Manager.echoPart (SerializeHeader samplePause)]] ∧
    (Manager.serverLoopStep sampleEnv 10 (some [SerializeHeader samplePause])
      sampleIdle).1.status = StatusType.IDLE :=
  ⟨by decide, by decide,
   (control_ack_header_only sampleEnv (by decide) 10 sampleIdle (SerializeHeader samplePause)
      [] (by decide) (Or.inr (Or.inr (Or.inl (by decide))))).1,
   (control_ack_header_only sampleEnv (by decide) 10 sampleIdle (SerializeHeader samplePause)
      [] (by decide) (Or.inr (Or.inr (Or.inl (by decide))))).2.2.2.2.1 (by decide)
      (by decide)⟩

/-- C12. GET_STATUS is a pure query: for every status, every definition and
every GET_STATUS request with a 6-byte header the reply is the echoed header
followed by the one payload part `toStatusStr` of the status, the status and
the task definition after the pass equal those before, and `toStatusStr` maps
the five statuses to "IDLE", "STARTING", "RUNNING", "PAUSED", "STOPPING",
pairwise distinct. -/
theorem get_status_pure_query (env : BuildEnv) (hv : env.valid) (now : Int) (p : PImpl)
    (s : String) (more : List String) (hlen : s.length = 6)
    (ht : (DeserializeRequestHeader s).type = RequestType.GET_STATUS) :
    (Manager.serverLoopStep env now (some (s :: more)) p).2 =
      [[Manager.echoPart s, toStatusStr p.status]] ∧
    (Manager.serverLoopStep env now (some (s :: more)) p).1.status = p.status ∧
    (Manager.serverLoopStep env now (some (s :: more)) p).1.tree_xml = p.tree_xml ∧
    toStatusStr StatusType.IDLE = "IDLE" ∧
    toStatusStr StatusType.STARTING = "STARTING" ∧
    toStatusStr StatusType.RUNNING = "RUNNING" ∧
    toStatusStr StatusType.PAUSED = "PAUSED" ∧
    toStatusStr StatusType.STOPPING = "STOPPING" ∧
    (∀ a b, toStatusStr a = toStatusStr b → a = b) := by
  rw [Manager.step_GET_STATUS env hv now p s more hlen ht]
  refine ⟨rfl, rfl, rfl, rfl, rfl, rfl, rfl, rfl, ?_⟩
  intro a b h
  cases a <;> cases b <;> first | rfl | exact absurd h (by decide)

theorem get_status_pure_query_witness :
    sampleEnv.valid ∧ (SerializeHeader sampleGetStatus).length = 6 ∧
    (Manager.serverLoopStep sampleEnv 10 (some [SerializeHeader sampleGetStatus])
      sampleRunning).2 = [[Manager.echoPart (SerializeHeader sampleGetStatus), "RUNNING"]] :=
  ⟨by decide, by decide,
   (get_status_pure_query sampleEnv (by decide) 10 sampleRunning
      (SerializeHeader sampleGetStatus) [] (by decide) (by decide)).1⟩

/-- C13. Rejected replace reply: for every status other than IDLE and every
two-part SET_DEFINITION request with a 6-byte header, any unique_id and any
payload, the reply is exactly the two-part message
("error", "Cannot change tree while running"), and the status and the task
definition are unchanged. -/
theorem rejected_replace_reply (env : BuildEnv) (hv : env.valid) (now : Int) (p : PImpl)
    (s : String) (payload : String) (hlen : s.length = 6)
    (ht : (DeserializeRequestHeader s).type = env.SET_TREE)
    (hst : p.status ≠ StatusType.IDLE) :
    (Manager.serverLoopStep env now (some [s, payload]) p).2 =
      [["error", "Cannot change tree while running"]] ∧
    (Manager.serverLoopStep env now (some [s, payload]) p).1.status = p.status ∧
    (Manager.serverLoopStep env now (some [s, payload]) p).1.tree_xml = p.tree_xml := by
  rw [Manager.step_SET_TREE env hv now p s [payload] hlen ht]
  have h2 : ¬ ([payload].length + 1 ≠ 2) := by simp
  rw [if_neg h2, if_pos hst]
  exact ⟨rfl, rfl, rfl⟩

theorem rejected_replace_reply_witness :
    sampleEnv.valid ∧ (SerializeHeader sampleSetTree).length = 6 ∧
    sampleRunning.status ≠ StatusType.IDLE ∧
    (Manager.serverLoopStep sampleEnv 10 (some [SerializeHeader sampleSetTree, "X"])
      sampleRunning).2 = [["error", "Cannot change tree while running"]] ∧
    (Manager.serverLoopStep sampleEnv 10 (some [SerializeHeader sampleSetTree, "X"])
      sampleRunning).1.status = StatusType.RUNNING ∧
    (Manager.serverLoopStep sampleEnv 10 (some [SerializeHeader sampleSetTree, "X"])
      sampleRunning).1.tree_xml = "<root/>" :=
  ⟨by decide, by decide, by decide,
   rejected_replace_reply sampleEnv (by decide) 10 sampleRunning
     (SerializeHeader sampleSetTree) "X" (by decide) (by decide) (by decide)⟩

/-- C14. Definition set/get round trip: when the status is IDLE and a two-part
SET_DEFINITION request carrying the text `X` is processed, a GET_DEFINITION
request processed right afterwards is answered with the echoed header followed
by one payload part equal to `X`, and `getXmlTree` returns `X`; GET_DEFINITION
itself, in any state, replies with the held definition and leaves the status
and the definition unchanged. -/
theorem definition_set_get_round_trip (env : BuildEnv) (hv : env.valid) (now1 now2 : Int)
    (p : PImpl) (s1 s2 X : String) (more : List String)
    (h1 : s1.length = 6) (h2 : s2.length = 6)
    (t1 : (DeserializeRequestHeader s1).type = env.SET_TREE)
    (t2 : (DeserializeRequestHeader s2).type = env.GET_TREE)
    (hst : p.status = StatusType.IDLE) :
    (Manager.serverLoopStep env now2 (some (s2 :: more))
        (Manager.serverLoopStep env now1 (some [s1, X]) p).1).2 =
      [[Manager.echoPart s2, X]] ∧
    Manager.getXmlTree (Manager.serverLoopStep env now1 (some [s1, X]) p).1 = X ∧
    (∀ q : PImpl,
      (Manager.serverLoopStep env now2 (some (s2 :: more)) q).2 =
        [[Manager.echoPart s2, q.tree_xml]] ∧
      (Manager.serverLoopStep env now2 (some (s2 :: more)) q).1.status = q.status ∧
      (Manager.serverLoopStep env now2 (some (s2 :: more)) q).1.tree_xml = q.tree_xml) := by
  have hset : (Manager.serverLoopStep env now1 (some [s1, X]) p).1.tree_xml = X := by
    rw [Manager.step_SET_TREE env hv now1 p s1 [X] h1 t1]
    have g : ¬ ([X].length + 1 ≠ 2) := by simp
    have g2 : ¬ (p.status ≠ StatusType.IDLE) := not_not.mpr hst
    rw [if_neg g, if_neg g2]
    rfl
  have hget : ∀ q : PImpl,
      Manager.serverLoopStep env now2 (some (s2 :: more)) q =
        ({ q with last_heartbeat := now2 }, [[Manager.echoPart s2, q.tree_xml]]) :=
    fun q => Manager.step_GET_TREE env hv now2 q s2 more h2 t2
  refine ⟨?_, hset, ?_⟩
  · rw [hget, hset]
  · intro q
    rw [hget]
    exact ⟨rfl, rfl, rfl⟩

theorem definition_set_get_round_trip_witness :
    sampleEnv.valid ∧ (SerializeHeader sampleSetTree).length = 6 ∧
    (SerializeHeader sampleGetTree).length = 6 ∧ sampleIdle.status = StatusType.IDLE ∧
    (Manager.serverLoopStep sampleEnv 20 (some [SerializeHeader sampleGetTree])
        (Manager.serverLoopStep sampleEnv 10 (some [SerializeHeader sampleSetTree, "X"])
          sampleIdle).1).2 =
      [[Manager.echoPart (SerializeHeader sampleGetTree), "X"]] :=
  ⟨by decide, by decide, by decide, by decide,
   (definition_set_get_round_trip sampleEnv (by decide) 10 20 sampleIdle
      (SerializeHeader sampleSetTree) (SerializeHeader sampleGetTree) "X" []
      (by decide) (by decide) (by decide) (by decide) (by decide)).1⟩

/-- C15 (counterexample). Clock readings are in nanoseconds.  With a maximum
delay of 5 ms set through `setMaxHeartbeatDelay`, a request received at time
100 ms does not bring the connection back: the monitor tick 10 ms later still
computes connected = false; with a maximum delay of 0 ms even a tick at the
very time of the request computes connected = false.  And with the largest
delay `milliseconds::max()` the tick does not compute
(now - t < max_delay): 10 ms after a request it yields false, because the
conversion of the delay to nanoseconds leaves the 64-bit range. -/
theorem heartbeat_not_recovered_with_short_delay :
    Manager.maxHeartbeatDelay (Manager.setMaxHeartbeatDelay sampleIdle 5) = 5 ∧
    (Manager.serverLoopStep sampleEnv 100000000 (some [SerializeHeader sampleGetStatus])
      (Manager.setMaxHeartbeatDelay sampleIdle 5)).1.last_heartbeat = 100000000 ∧
    Manager.heartbeatLoopStep 110000000
      (Manager.serverLoopStep sampleEnv 100000000 (some [SerializeHeader sampleGetStatus])
        (Manager.setMaxHeartbeatDelay sampleIdle 5)).1 false = false ∧
    Manager.heartbeatLoopStep 100000000
      (Manager.serverLoopStep sampleEnv 100000000 (some [SerializeHeader sampleGetStatus])
        (Manager.setMaxHeartbeatDelay sampleIdle 0)).1 false = false ∧
    Manager.fitsInt64 9223372036854775807 ∧
    ¬ Manager.fitsInt64 (9223372036854775807 * Manager.ticksPerMillisecond) ∧
    Manager.heartbeatLoopStep 110000000
      (Manager.serverLoopStep sampleEnv 100000000 (some [SerializeHeader sampleGetStatus])
        (Manager.setMaxHeartbeatDelay sampleIdle 9223372036854775807)).1 true = false := by
  decide

/-- C15 (amended). Clock readings are in nanoseconds and the maximum delay `d`,
set through `setMaxHeartbeatDelay`, is in milliseconds.  For every `d` whose
conversion to nanoseconds fits 64 bits, a monitor tick at time `now` with last
activity `t` computes connected = (now - t < d ms); hence it yields false when
no request has been received for longer than `d` ms; and after one further
received request of any kind, at time `t1`, a tick at time `now1` yields true
provided `now1 - t1 < d ms`, which is the case for the tick that follows within
one 10 ms tick interval whenever `d` is larger than 10. -/
theorem heartbeat_decay_and_recovery (env : BuildEnv) (p : PImpl) (d now t1 now1 : Int)
    (prev : Bool) (s : String) (more : List String)
    (hd : Manager.fitsInt64 (d * Manager.ticksPerMillisecond)) :
    Manager.maxHeartbeatDelay (Manager.setMaxHeartbeatDelay p d) = d ∧
    (Manager.fitsInt64 (now - p.last_heartbeat) →
      Manager.heartbeatLoopStep now (Manager.setMaxHeartbeatDelay p d) prev =
        decide (now - p.last_heartbeat < d * Manager.ticksPerMillisecond)) ∧
    (Manager.fitsInt64 (now - p.last_heartbeat) →
      d * Manager.ticksPerMillisecond < now - p.last_heartbeat →
      Manager.heartbeatLoopStep now (Manager.setMaxHeartbeatDelay p d) prev = false) ∧
    (Manager.fitsInt64 (now1 - t1) → now1 - t1 < d * Manager.ticksPerMillisecond →
      Manager.heartbeatLoopStep now1
        (Manager.serverLoopStep env t1 (some (s :: more))
          (Manager.setMaxHeartbeatDelay p d)).1 prev = true) ∧
    (10 < d → Manager.fitsInt64 (now1 - t1) → now1 - t1 ≤ 10 * Manager.ticksPerMillisecond →
      Manager.heartbeatLoopStep now1
        (Manager.serverLoopStep env t1 (some (s :: more))
          (Manager.setMaxHeartbeatDelay p d)).1 prev = true) := by
  have hlast := Manager.step_last_heartbeat env t1 (Manager.setMaxHeartbeatDelay p d) s more
  have hmax := Manager.step_max_heartbeat_delay env t1 (Manager.setMaxHeartbeatDelay p d) s more
  have hdel : (Manager.setMaxHeartbeatDelay p d).max_heartbeat_delay = d := rfl
  have hl0 : (Manager.setMaxHeartbeatDelay p d).last_heartbeat = p.last_heartbeat := rfl
  have htick0 : Manager.fitsInt64 (now - p.last_heartbeat) →
      Manager.heartbeatLoopStep now (Manager.setMaxHeartbeatDelay p d) prev =
        decide (now - p.last_heartbeat < d * Manager.ticksPerMillisecond) := by
    intro he
    rw [Manager.heartbeatLoopStep_of_fits now _ prev (by rw [hl0]; exact he)
      (by rw [hdel]; exact hd), hl0, hdel]
  have htick1 : Manager.fitsInt64 (now1 - t1) →
      Manager.heartbeatLoopStep now1
        (Manager.serverLoopStep env t1 (some (s :: more))
          (Manager.setMaxHeartbeatDelay p d)).1 prev =
        decide (now1 - t1 < d * Manager.ticksPerMillisecond) := by
    intro he
    rw [Manager.heartbeatLoopStep_of_fits now1 _ prev (by rw [hlast]; exact he)
      (by rw [hmax, hdel]; exact hd), hlast, hmax, hdel]
  refine ⟨rfl, htick0, ?_, ?_, ?_⟩
  · intro he h
    rw [htick0 he]
    exact decide_eq_false (by omega)
  · intro he h
    rw [htick1 he]
    exact decide_eq_true h
  · intro h10 he hn
    rw [htick1 he]
    unfold Manager.ticksPerMillisecond at hn ⊢
    exact decide_eq_true (by omega)

theorem heartbeat_decay_and_recovery_witness :
    Manager.fitsInt64 (5000 * Manager.ticksPerMillisecond) ∧ (10 : Int) < 5000 ∧
    Manager.fitsInt64 (110000000 - 100000000) ∧
    (110000000 - 100000000 : Int) ≤ 10 * Manager.ticksPerMillisecond ∧
    Manager.heartbeatLoopStep 110000000
      (Manager.serverLoopStep sampleEnv 100000000 (some [SerializeHeader sampleGetStatus])
        (Manager.setMaxHeartbeatDelay sampleIdle 5000)).1 false = true :=
  ⟨by decide, by decide, by decide, by decide,
   (heartbeat_decay_and_recovery sampleEnv sampleIdle 5000 6000000000 100000000 110000000
      false (SerializeHeader sampleGetStatus) [] (by decide)).2.2.2.2 (by decide) (by decide)
      (by decide)⟩

/-- C16. The liveness timestamp is updated by every received request: for
every received request with at least one part, whatever its first part (wrong
size, any protocol byte, any type) and its further parts, the pass sets
`last_heartbeat` to the current time; the reply and the state it produces are
those computed from the state in which the timestamp is already set, and
exactly one reply is sent. -/
theorem liveness_timestamp_updated (env : BuildEnv) (now : Int) (p : PImpl) (s : String)
    (more : List String) :
    (Manager.serverLoopStep env now (some (s :: more)) p).1.last_heartbeat = now ∧
    Manager.serverLoopStep env now (some (s :: more)) p =
      Manager.serverLoopStep env now (some (s :: more)) { p with last_heartbeat := now } ∧
    (Manager.serverLoopStep env now (some (s :: more)) p).2.length = 1 := by
  refine ⟨Manager.step_last_heartbeat env now p s more, rfl, ?_⟩
  by_cases hlen : s.length = 6
  · rcases Manager.step_reply_shape env now p s more hlen with h | ⟨x, h⟩ | ⟨msg, h⟩ <;>
      rw [h] <;> rfl
  · rw [Manager.step_wrong_size env now p s more hlen]
    rfl

/-- C17. Host-only completions: whatever the pass receives (nothing, any
header bytes, any number of parts), a status that is STARTING before the pass
is not RUNNING after it, and a status that is STOPPING before the pass is not
IDLE after it; `setStatus` sets the status it is given, RUNNING and IDLE
included. -/
theorem host_only_completions (env : BuildEnv) (now : Int) (recv : Option (List String))
    (p : PImpl) :
    (p.status = StatusType.STARTING →
      (Manager.serverLoopStep env now recv p).1.status ≠ StatusType.RUNNING) ∧
    (p.status = StatusType.STOPPING →
      (Manager.serverLoopStep env now recv p).1.status ≠ StatusType.IDLE) ∧
    (∀ st, Manager.getStatus (Manager.setStatus p st) = st) := by
  refine ⟨?_, ?_, fun _ => rfl⟩
  · intro h
    rw [Manager.step_starting env now recv p h]
    decide
  · intro h
    rcases Manager.step_status_cases env now recv p with
      e | e | ⟨g, -⟩ | ⟨g, -⟩ | ⟨g, -⟩
    · rw [e, h]; decide
    · rw [e]; decide
    · rcases g with g | g <;> rw [h] at g <;> exact absurd g (by decide)
    · rw [h] at g; exact absurd g (by decide)
    · rw [h] at g; exact absurd g (by decide)

theorem host_only_completions_witness :
    (Manager.setStatus sampleIdle StatusType.STARTING).status = StatusType.STARTING ∧
    (Manager.serverLoopStep sampleEnv 10 (some [SerializeHeader sampleStart])
      (Manager.setStatus sampleIdle StatusType.STARTING)).1.status ≠ StatusType.RUNNING :=
  ⟨by decide,
   (host_only_completions sampleEnv 10 (some [SerializeHeader sampleStart])
      (Manager.setStatus sampleIdle StatusType.STARTING)).1 (by decide)⟩

/-- C18. Every request is answered and none stops the service: for every state
and every received request with at least one part the pass sends exactly one
reply message, which is either a normal reply (the first part of the request
is 6 bytes long and the reply is the echoed header, alone or followed by one
payload part) or an error reply of exactly the two parts "error" and a message;
the pass leaves the flag `active_server` unchanged, so that the loop, when
active, goes on with the passes that follow. -/
theorem every_request_answered (env : BuildEnv) (now : Int) (p : PImpl) (s : String)
    (more : List String) (rest : List Manager.Pass) :
    ((s.length = 6 ∧
        ((Manager.serverLoopStep env now (some (s :: more)) p).2 = [[Manager.echoPart s]] ∨
         ∃ payload, (Manager.serverLoopStep env now (some (s :: more)) p).2 =
           [[Manager.echoPart s, payload]])) ∨
     ∃ msg, (Manager.serverLoopStep env now (some (s :: more)) p).2 = [["error", msg]]) ∧
    (Manager.serverLoopStep env now (some (s :: more)) p).1.active_server = p.active_server ∧
    (p.active_server = true →
      Manager.serverLoopPasses env (⟨now, some (s :: more)⟩ :: rest) p =
        ((Manager.serverLoopPasses env rest
            (Manager.serverLoopStep env now (some (s :: more)) p).1).1,
         (Manager.serverLoopStep env now (some (s :: more)) p).2 ++
           (Manager.serverLoopPasses env rest
             (Manager.serverLoopStep env now (some (s :: more)) p).1).2)) := by
  refine ⟨?_, Manager.step_active_server env now _ p, ?_⟩
  · by_cases hlen : s.length = 6
    · rcases Manager.step_reply_shape env now p s more hlen with h | ⟨x, h⟩ | ⟨msg, h⟩
      · exact Or.inl ⟨hlen, Or.inl h⟩
      · exact Or.inl ⟨hlen, Or.inr ⟨x, h⟩⟩
      · exact Or.inr ⟨msg, h⟩
    · rw [Manager.step_wrong_size env now p s more hlen]
      exact Or.inr ⟨_, rfl⟩
  · intro hact
    simp only [Manager.serverLoopPasses, hact, if_true]

theorem every_request_answered_witness :
    sampleIdle.active_server = true ∧
    Manager.serverLoopPasses sampleEnv
        [⟨10, some ["\x02S*\x00"]⟩, ⟨20, some [SerializeHeader sampleStart]⟩] sampleIdle =
      ((Manager.serverLoopPasses sampleEnv [⟨20, some [SerializeHeader sampleStart]⟩]
          (Manager.serverLoopStep sampleEnv 10 (some ["\x02S*\x00"]) sampleIdle).1).1,
       (Manager.serverLoopStep sampleEnv 10 (some ["\x02S*\x00"]) sampleIdle).2 ++
         (Manager.serverLoopPasses sampleEnv [⟨20, some [SerializeHeader sampleStart]⟩]
           (Manager.serverLoopStep sampleEnv 10 (some ["\x02S*\x00"]) sampleIdle).1).2) :=
  ⟨by decide,
   (every_request_answered sampleEnv 10 sampleIdle "\x02S*\x00" []
      [⟨20, some [SerializeHeader sampleStart]⟩]).2.2 (by decide)⟩

/-- C20. Reachable states without the host: from the state the constructor
prepares (status IDLE), after `serverLoop` has processed any finite sequence of
passes the status is IDLE or STARTING, hence none of RUNNING, PAUSED and
STOPPING; and once the status is STARTING it is still STARTING, hence not IDLE,
after any further passes.  STARTING is indeed reached, by one START request. -/
theorem reachable_without_host (env : BuildEnv) (tree_xml : String) (start : Int)
    (passes further : List Manager.Pass) :
    ((Manager.serverLoop env start passes (Manager.init tree_xml)).1.status = StatusType.IDLE ∨
     (Manager.serverLoop env start passes (Manager.init tree_xml)).1.status =
       StatusType.STARTING) ∧
    (Manager.serverLoop env start passes (Manager.init tree_xml)).1.status ≠
      StatusType.RUNNING ∧
    (Manager.serverLoop env start passes (Manager.init tree_xml)).1.status ≠
      StatusType.PAUSED ∧
    (Manager.serverLoop env start passes (Manager.init tree_xml)).1.status ≠
      StatusType.STOPPING ∧
    ((Manager.serverLoop env start passes (Manager.init tree_xml)).1.status =
        StatusType.STARTING →
      (Manager.serverLoop env start (passes ++ further) (Manager.init tree_xml)).1.status =
        StatusType.STARTING ∧
      (Manager.serverLoop env start (passes ++ further) (Manager.init tree_xml)).1.status ≠
        StatusType.IDLE) ∧
    (Manager.serverLoop sampleEnv 0 [⟨1, some [SerializeHeader sampleStart]⟩]
      (Manager.init "")).1.status = StatusType.STARTING := by
  have h0 : (Manager.serverLoopEnter start (Manager.init tree_xml)).status = StatusType.IDLE ∨
      (Manager.serverLoopEnter start (Manager.init tree_xml)).status = StatusType.STARTING :=
    Or.inl rfl
  have hinv := Manager.serverLoopPasses_idle_or_starting env passes _ h0
  refine ⟨hinv, ?_, ?_, ?_, ?_, by decide⟩
  · rcases hinv with h | h <;> (unfold Manager.serverLoop; rw [h]; decide)
  · rcases hinv with h | h <;> (unfold Manager.serverLoop; rw [h]; decide)
  · rcases hinv with h | h <;> (unfold Manager.serverLoop; rw [h]; decide)
  · intro h
    have happ : (Manager.serverLoop env start (passes ++ further)
        (Manager.init tree_xml)).1.status = StatusType.STARTING := by
      unfold Manager.serverLoop at h ⊢
      rw [Manager.serverLoopPasses_append]
      exact Manager.serverLoopPasses_starting env further _ h
    refine ⟨happ, ?_⟩
    rw [happ]
    decide

theorem reachable_without_host_witness :
    (Manager.serverLoop sampleEnv 0 [⟨1, some [SerializeHeader sampleStart]⟩]
      (Manager.init "")).1.status = StatusType.STARTING ∧
    (Manager.serverLoop sampleEnv 0
      ([⟨1, some [SerializeHeader sampleStart]⟩] ++ [⟨2, some [SerializeHeader samplePause]⟩])
      (Manager.init "")).1.status = StatusType.STARTING :=
  ⟨by decide,
   ((reachable_without_host sampleEnv "" 0 [⟨1, some [SerializeHeader sampleStart]⟩]
      [⟨2, some [SerializeHeader samplePause]⟩]).2.2.2.2.1 (by decide)).1⟩

end LINFA
